import Mathlib

/-!
Verification of the paginated GitHub-organization repository fetcher
(`fetch_github_org_repos.py`).

The script is shallowly embedded as follows.

* JSON values are the inductive type `J`; Python dictionary/list access is
  modelled by `pyGet` (`dict.get` with default), `pyIndexS` (`d[k]`),
  `pyIndex0` (`xs[0]`), `pyIter` (`for x in v`), `truthy` (Python truth
  value), and `pyJoinStrs` (`", ".join(...)`).  Operations that raise in
  Python return `Except.error ()` / are reported through explicit flags.
* The network is simulated: each HTTP POST consumes the next element of a
  list of `Resp` values (`Resp.transport` = a `requests` exception or
  non-2xx status, `Resp.body j` = an HTTP 200 carrying JSON body `j`).
  The repository-listing loop (`fetch_org_repos`) consumes its own stream;
  each nested pull-request drain (`fetch_pull_requests_count`) consumes
  the stream `prOracle name` attached to the repository's name.
* The global `token_index` is threaded through every state explicitly;
  `switch_token` is the only function that produces a new index.

A run over a finite simulated stream returns `none` when the stream is
exhausted while a loop is still retrying (the Python process would still
be looping), and `some (result, rest)` when the loop exits, `rest` being
the unconsumed responses.
-/

/-- JSON values, as delivered by `response.json()`. -/
inductive J where
  | null
  | str (s : String)
  | num (n : Int)
  | bool (b : Bool)
  | list (xs : List J)
  | obj (fields : List (String × J))

/-- Key lookup in an object's field list (Python dictionaries have unique
keys, so first match suffices). -/
def lookupKey : List (String × J) → String → Option J
  | [], _ => none
  | (k, v) :: rest, key => if k == key then some v else lookupKey rest key

/-- Python `v.get(k, d)`: default when the key is absent, `AttributeError`
(modelled as `Except.error`) when `v` is not a dictionary. -/
def pyGet (v : J) (k : String) (d : J) : Except Unit J :=
  match v with
  | J.obj fs =>
    match lookupKey fs k with
    | some x => Except.ok x
    | none => Except.ok d
  | _ => Except.error ()

/-- Python `v[k]` for a string key: `KeyError` when absent, `TypeError`
when `v` is not a dictionary. -/
def pyIndexS (v : J) (k : String) : Except Unit J :=
  match v with
  | J.obj fs =>
    match lookupKey fs k with
    | some x => Except.ok x
    | none => Except.error ()
  | _ => Except.error ()

/-- Python `v[0]`: first element of a list (IndexError when empty), first
character of a string, `TypeError`/`KeyError` otherwise. -/
def pyIndex0 (v : J) : Except Unit J :=
  match v with
  | J.list (x :: _) => Except.ok x
  | J.str s => if s.isEmpty then Except.error () else Except.ok (J.str (s.take 1))
  | _ => Except.error ()

/-- Python truth value of a JSON value. -/
def truthy : J → Bool
  | J.null => false
  | J.str s => !s.isEmpty
  | J.num n => decide (n ≠ 0)
  | J.bool b => b
  | J.list xs => !xs.isEmpty
  | J.obj fs => !fs.isEmpty

/-- Python `for x in v`: elements of a list, keys of a dictionary,
characters of a string; `TypeError` otherwise. -/
def pyIter : J → Except Unit (List J)
  | J.list xs => Except.ok xs
  | J.obj fs => Except.ok (fs.map fun kv => J.str kv.1)
  | J.str s => Except.ok (s.toList.map fun c => J.str (String.mk [c]))
  | _ => Except.error ()

/-- Python `v == s` for a string literal `s`: true only when `v` is that
string (comparison between different types is `False`, not an error). -/
def pyEqStr (v : J) (s : String) : Bool :=
  match v with
  | J.str t => t == s
  | _ => false

/-- Python `"errors" in data`: key membership for a dictionary, element
membership for a list, substring test for a string, `TypeError` otherwise. -/
def hasErrorsKey : J → Except Unit Bool
  | J.obj fs =>
    Except.ok (match lookupKey fs "errors" with
      | some _ => true
      | none => false)
  | J.list xs => Except.ok (xs.any fun x => pyEqStr x "errors")
  | J.str s => Except.ok (decide ((s.splitOn "errors").length > 1))
  | _ => Except.error ()

/-- Python `", ".join(items)`: `TypeError` unless every element is a
string. -/
def pyJoinStrs : List J → Except Unit String
  | [] => Except.ok ""
  | [J.str s] => Except.ok s
  | J.str s :: x :: rest =>
    match pyJoinStrs (x :: rest) with
    | Except.ok t => Except.ok (s ++ ", " ++ t)
    | Except.error e => Except.error e
  | _ => Except.error ()

/-- One simulated network exchange: either a transport-level failure (a
`requests` exception or a non-2xx status raised by `raise_for_status`) or
an HTTP-successful response with a JSON body. -/
inductive Resp where
  | transport
  | body (data : J)

/-- `switch_token`: advance the global token index cyclically over the
`n` configured tokens. -/
def switch_token (n i : Nat) : Nat := (i + 1) % n

/-- `get_headers`: build the Authorization header from the token at the
current index; the source reads the global index and never writes it. -/
def get_headers (tokens : List String) (i : Nat) : Option (List (String × String)) :=
  (tokens.get? i).map fun t => [("Authorization", "Bearer " ++ t)]

/-- `get_headers` together with the (unchanged) global token index, making
the read-only access to the index explicit. -/
def get_headers_state (tokens : List String) (i : Nat) :
    Option (List (String × String)) × Nat :=
  (get_headers tokens i, i)

/-! ## Pull-request counter (`fetch_pull_requests_count`) -/

/-- Mutable state of the `while True` loop of `fetch_pull_requests_count`:
the two counters, the pagination cursor variable, and the global token
index. -/
structure PRState where
  openCount : Nat
  closedCount : Nat
  cursor : J
  tokenIndex : Nat

/-- Replace the token index of a pull-request loop state. -/
def setTok (s : PRState) (t : Nat) : PRState := { s with tokenIndex := t }

/-- Apply `switch_token` to the token index of a pull-request loop state. -/
def rotateTok (n : Nat) (s : PRState) : PRState :=
  { s with tokenIndex := switch_token n s.tokenIndex }

/-- Result of the `for pr in pull_requests` counting loop: increments for
the two counters from the prefix processed, plus whether an element raised
(`pr["state"]` on a malformed element), which aborts the iteration with
the increments made so far kept. -/
structure CountRes where
  openInc : Nat
  closedInc : Nat
  raised : Bool

/-- The counting loop: `CLOSED`/`MERGED` increments the closed counter,
`OPEN` the open counter, anything else is ignored. -/
def countStates : List J → CountRes
  | [] => ⟨0, 0, false⟩
  | pr :: rest =>
    match pyIndexS pr "state" with
    | Except.error _ => ⟨0, 0, true⟩
    | Except.ok st =>
      let r := countStates rest
      if pyEqStr st "CLOSED" || pyEqStr st "MERGED" then ⟨r.openInc, r.closedInc + 1, r.raised⟩
      else if pyEqStr st "OPEN" then ⟨r.openInc + 1, r.closedInc, r.raised⟩
      else r

/-- `data["data"]["repository"]["pullRequests"]["nodes"]`, made iterable. -/
def prNodesOf (data : J) : Except Unit (List J) := do
  let d ← pyIndexS data "data"
  let rep ← pyIndexS d "repository"
  let prq ← pyIndexS rep "pullRequests"
  let ns ← pyIndexS prq "nodes"
  pyIter ns

/-- `data["data"]["repository"]["pullRequests"]["pageInfo"]["hasNextPage"]`. -/
def prHasNext (data : J) : Except Unit J := do
  let d ← pyIndexS data "data"
  let rep ← pyIndexS d "repository"
  let prq ← pyIndexS rep "pullRequests"
  let pinfo ← pyIndexS prq "pageInfo"
  pyIndexS pinfo "hasNextPage"

/-- `data["data"]["repository"]["pullRequests"]["pageInfo"]["endCursor"]`. -/
def prEndCursor (data : J) : Except Unit J := do
  let d ← pyIndexS data "data"
  let rep ← pyIndexS d "repository"
  let prq ← pyIndexS rep "pullRequests"
  let pinfo ← pyIndexS prq "pageInfo"
  pyIndexS pinfo "endCursor"

/-- How one loop iteration of `fetch_pull_requests_count` treats a
response; the branch taken depends only on the response, never on the
loop state. -/
inductive PRClass where
  | retry
  | retryCounted (oi ci : Nat)
  | advance (oi ci : Nat) (c : J)
  | finish (oi ci : Nat)

/-- Classify an HTTP-successful body exactly as the loop body does:
soft error (`"errors" in data`, including the membership test itself
raising) → retry; an exception while extracting or iterating the nodes →
retry; an exception after the counting loop → retry keeping the counts
already accumulated (the counters were mutated before the raise); a good
page → advance to `endCursor` or finish when `hasNextPage` is falsy. -/
def classifyPRBody (data : J) : PRClass :=
  match hasErrorsKey data with
  | Except.error _ => PRClass.retry
  | Except.ok true => PRClass.retry
  | Except.ok false =>
    match prNodesOf data with
    | Except.error _ => PRClass.retry
    | Except.ok nodes =>
      let t := countStates nodes
      if t.raised then PRClass.retryCounted t.openInc t.closedInc
      else
        match prHasNext data with
        | Except.error _ => PRClass.retryCounted t.openInc t.closedInc
        | Except.ok hn =>
          if truthy hn then
            match prEndCursor data with
            | Except.error _ => PRClass.retryCounted t.openInc t.closedInc
            | Except.ok ec => PRClass.advance t.openInc t.closedInc ec
          else PRClass.finish t.openInc t.closedInc

/-- Classify one simulated exchange: a transport failure lands in the
`except` handlers (log, `switch_token`, retry); a body is classified by
its content. -/
def classifyPR : Resp → PRClass
  | Resp.transport => PRClass.retry
  | Resp.body data => classifyPRBody data

/-- Outcome of one iteration of the pull-request loop: keep looping with a
new state, or `break` out with the final counters (the token index is
returned because the global index survives the call). -/
inductive PRStep where
  | cont (s : PRState)
  | done (openCount closedCount tokenIndex : Nat)

/-- One iteration of the `while True` loop of `fetch_pull_requests_count`
on one simulated response. -/
def prStep (n : Nat) (s : PRState) (r : Resp) : PRStep :=
  match classifyPR r with
  | PRClass.retry => PRStep.cont (rotateTok n s)
  | PRClass.retryCounted oi ci =>
    PRStep.cont (rotateTok n { s with openCount := s.openCount + oi, closedCount := s.closedCount + ci })
  | PRClass.advance oi ci c =>
    PRStep.cont { s with openCount := s.openCount + oi, closedCount := s.closedCount + ci, cursor := c }
  | PRClass.finish oi ci =>
    PRStep.done (s.openCount + oi) (s.closedCount + ci) s.tokenIndex

/-- Result of a completed pull-request drain: the two counters, the global
token index afterwards, and how many page requests were issued. -/
structure PRResult where
  openCount : Nat
  closedCount : Nat
  tokenIndex : Nat
  requests : Nat

/-- Count one more issued request in a pull-request run result. -/
def bumpPR : Option (PRResult × List Resp) → Option (PRResult × List Resp)
  | none => none
  | some (res, rem) => some ({ res with requests := res.requests + 1 }, rem)

/-- Run the pull-request loop over a finite simulated response stream:
`none` when the stream runs out while the loop is still going, otherwise
the result together with the unconsumed responses. -/
def prRun (n : Nat) : PRState → List Resp → Option (PRResult × List Resp)
  | _, [] => none
  | s, r :: rs =>
    match prStep n s r with
    | PRStep.done o c t => some (⟨o, c, t, 1⟩, rs)
    | PRStep.cont s' => bumpPR (prRun n s' rs)

/-- `fetch_pull_requests_count`: counters start at zero, cursor starts at
`None`, the global token index is whatever it currently is. -/
def fetch_pull_requests_count (n ti : Nat) (stream : List Resp) :
    Option (PRResult × List Resp) :=
  prRun n ⟨0, 0, J.null, ti⟩ stream

/-! ## Repository enumerator (`fetch_org_repos`) -/

/-- Whether a JSON value is a dictionary (so that `v.get(...)` succeeds). -/
def isObj : J → Bool
  | J.obj _ => true
  | _ => false

/-- Whether a JSON value is Python `None`. -/
def isNull : J → Bool
  | J.null => true
  | _ => false

/-- `repo.get("defaultBranchRef", {}).get("name", "N/A")`. -/
def getDefaultBranch (repo : J) : Except Unit J := do
  let dbr ← pyGet repo "defaultBranchRef" (J.obj [])
  pyGet dbr "name" (J.str "N/A")

/-- `repo.get("defaultBranchRef", {}).get("target", {}).get("history", {}).get("totalCount", 0)`. -/
def getTotalCommits (repo : J) : Except Unit J := do
  let dbr ← pyGet repo "defaultBranchRef" (J.obj [])
  let tgt ← pyGet dbr "target" (J.obj [])
  let hist ← pyGet tgt "history" (J.obj [])
  pyGet hist "totalCount" (J.num 0)

/-- The last-pusher chain:
`repo.get("defaultBranchRef", {}).get("target", {}).get("history", {}).get("nodes", [{}])[0].get("author", {}).get("user", {}).get("login", "N/A")`. -/
def getLastPusher (repo : J) : Except Unit J := do
  let dbr ← pyGet repo "defaultBranchRef" (J.obj [])
  let tgt ← pyGet dbr "target" (J.obj [])
  let hist ← pyGet tgt "history" (J.obj [])
  let nodes ← pyGet hist "nodes" (J.list [J.obj []])
  let node0 ← pyIndex0 nodes
  let author ← pyGet node0 "author" (J.obj [])
  let user ← pyGet author "user" (J.obj [])
  pyGet user "login" (J.str "N/A")

/-- `"Private" if repo.get("isPrivate", False) else "Public"`. -/
def getVisibility (repo : J) : Except Unit String := do
  let p ← pyGet repo "isPrivate" (J.bool false)
  Except.ok (if truthy p then "Private" else "Public")

/-- `", ".join([lang.get("name", "N/A") for lang in repo.get("languages", {}).get("nodes", [])])`. -/
def getLanguages (repo : J) : Except Unit String := do
  let langs ← pyGet repo "languages" (J.obj [])
  let nodes ← pyGet langs "nodes" (J.list [])
  let items ← pyIter nodes
  let names ← items.mapM fun lang => pyGet lang "name" (J.str "N/A")
  pyJoinStrs names

/-- `repo.get("openIssues", {}).get("totalCount", 0)`. -/
def getOpenIssues (repo : J) : Except Unit J := do
  let v ← pyGet repo "openIssues" (J.obj [])
  pyGet v "totalCount" (J.num 0)

/-- `repo.get("closedIssues", {}).get("totalCount", 0)`. -/
def getClosedIssues (repo : J) : Except Unit J := do
  let v ← pyGet repo "closedIssues" (J.obj [])
  pyGet v "totalCount" (J.num 0)

/-- `repo.get("releases", {}).get("totalCount", 0)`. -/
def getTotalReleases (repo : J) : Except Unit J := do
  let v ← pyGet repo "releases" (J.obj [])
  pyGet v "totalCount" (J.num 0)

/-- `repo.get("refs", {}).get("totalCount", 0)` (tag refs). -/
def getTotalTags (repo : J) : Except Unit J := do
  let v ← pyGet repo "refs" (J.obj [])
  pyGet v "totalCount" (J.num 0)

/-- `"Yes" if repo.get("isArchived", False) else "No"`. -/
def getArchived (repo : J) : Except Unit String := do
  let a ← pyGet repo "isArchived" (J.bool false)
  Except.ok (if truthy a then "Yes" else "No")

/-- The fields computed before the nested pull-request call (source order:
name, visibility, size, default branch, total commits, last pusher). -/
structure PreFields where
  name : J
  visibility : String
  sizeKB : J
  defaultBranch : J
  totalCommits : J
  lastPusher : J

/-- The fields computed after the nested pull-request call (source order:
open/closed issues, languages, releases, tags, timestamps, archived). -/
structure PostFields where
  openIssues : J
  closedIssues : J
  languages : String
  totalReleases : J
  totalTags : J
  lastPushedAt : J
  lastUpdatedAt : J
  archived : String

/-- Lines 197-202 of the source: the normalizations executed before
`fetch_pull_requests_count` is invoked. -/
def normalizePre (repo : J) : Except Unit PreFields := do
  let name ← pyGet repo "name" (J.str "N/A")
  let visibility ← getVisibility repo
  let sizeKB ← pyGet repo "diskUsage" (J.str "N/A")
  let defaultBranch ← getDefaultBranch repo
  let totalCommits ← getTotalCommits repo
  let lastPusher ← getLastPusher repo
  Except.ok ⟨name, visibility, sizeKB, defaultBranch, totalCommits, lastPusher⟩

/-- Lines 204-211 of the source: the normalizations executed after
`fetch_pull_requests_count` returned. -/
def normalizePost (repo : J) : Except Unit PostFields := do
  let openIssues ← getOpenIssues repo
  let closedIssues ← getClosedIssues repo
  let languages ← getLanguages repo
  let totalReleases ← getTotalReleases repo
  let totalTags ← getTotalTags repo
  let lastPushedAt ← pyGet repo "pushedAt" (J.str "N/A")
  let lastUpdatedAt ← pyGet repo "updatedAt" (J.str "N/A")
  let archived ← getArchived repo
  Except.ok ⟨openIssues, closedIssues, languages, totalReleases, totalTags,
    lastPushedAt, lastUpdatedAt, archived⟩

/-- One flat report row (`repo_info` dictionary), fields in the order of
the 16-column schema. -/
structure RepoInfo where
  name : J
  visibility : String
  sizeKB : J
  defaultBranch : J
  totalCommits : J
  lastPusher : J
  openPullRequests : Nat
  closedPullRequests : Nat
  openIssues : J
  closedIssues : J
  languages : String
  totalReleases : J
  totalTags : J
  lastPushedAt : J
  lastUpdatedAt : J
  archived : String

/-- Assemble a report row from the normalized fields and the drained
pull-request counters. -/
def mkRow (pre : PreFields) (o c : Nat) (post : PostFields) : RepoInfo :=
  ⟨pre.name, pre.visibility, pre.sizeKB, pre.defaultBranch, pre.totalCommits,
   pre.lastPusher, o, c, post.openIssues, post.closedIssues, post.languages,
   post.totalReleases, post.totalTags, post.lastPushedAt, post.lastUpdatedAt,
   post.archived⟩

/-- Outcome of handling one entry of a repository page: skipped (a `None`
entry, or a normalization exception whose logging succeeded because the
entry is a dictionary), a finished row, or an exception raised inside the
`except` handler itself (`repo.get('name', 'N/A')` on a non-dictionary),
which propagates to the page-level handler. -/
inductive RecOutcome where
  | skip (ti : Nat)
  | row (r : RepoInfo) (ti : Nat)
  | abortPage (ti : Nat)

/-- Process one entry of a repository page.  `none` means the simulated
pull-request stream for this repository ran out mid-drain (the Python
process would still be inside `fetch_pull_requests_count`). -/
def processRecord (n ti : Nat) (prOracle : J → List Resp) (repo : J) : Option RecOutcome :=
  if isNull repo then some (RecOutcome.skip ti)
  else
    match normalizePre repo with
    | Except.error _ =>
      some (if isObj repo then RecOutcome.skip ti else RecOutcome.abortPage ti)
    | Except.ok pre =>
      match fetch_pull_requests_count n ti (prOracle pre.name) with
      | none => none
      | some (res, _) =>
        match normalizePost repo with
        | Except.error _ =>
          some (if isObj repo then RecOutcome.skip res.tokenIndex
                else RecOutcome.abortPage res.tokenIndex)
        | Except.ok post =>
          some (RecOutcome.row (mkRow pre res.openCount res.closedCount post) res.tokenIndex)

/-- Outcome of the `for repo in repos` loop over one page: completed with
the rows appended (in order), aborted partway by a handler re-raise with
the rows appended before the abort, or stuck mid-pull-request-drain. -/
inductive PageOutcome where
  | ok (rows : List RepoInfo) (ti : Nat)
  | aborted (rows : List RepoInfo) (ti : Nat)
  | stuck

/-- The `for repo in repos` loop. -/
def processRecords (n : Nat) (prOracle : J → List Resp) : Nat → List J → PageOutcome
  | ti, [] => PageOutcome.ok [] ti
  | ti, repo :: rest =>
    match processRecord n ti prOracle repo with
    | none => PageOutcome.stuck
    | some (RecOutcome.skip ti') => processRecords n prOracle ti' rest
    | some (RecOutcome.abortPage ti') => PageOutcome.aborted [] ti'
    | some (RecOutcome.row r ti') =>
      match processRecords n prOracle ti' rest with
      | PageOutcome.ok rows ti'' => PageOutcome.ok (r :: rows) ti''
      | PageOutcome.aborted rows ti'' => PageOutcome.aborted (r :: rows) ti''
      | PageOutcome.stuck => PageOutcome.stuck

/-- Lines 181-184 of the source: the `.get` chains extracting the node
list, `hasNextPage`, and `endCursor` (an exception anywhere lands in the
outer handler). -/
def orgBodyParse (data : J) : Except Unit (J × J × J) := do
  let d ← pyGet data "data" (J.obj [])
  let org ← pyGet d "organization" (J.obj [])
  let reps ← pyGet org "repositories" (J.obj [])
  let nodes ← pyGet reps "nodes" (J.list [])
  let pinfo ← pyGet reps "pageInfo" (J.obj [])
  let hn ← pyGet pinfo "hasNextPage" (J.bool false)
  let ec ← pyGet pinfo "endCursor" J.null
  Except.ok (nodes, hn, ec)

/-- How one loop iteration of `fetch_org_repos` treats an HTTP-successful
body: soft error or extraction exception → retry with nothing changed;
empty (falsy) node list → break; truthy but non-iterable node list → the
`for` raises after the cursor variable was already reassigned; otherwise
the records with the paging data. -/
inductive OrgClass where
  | retry
  | emptyBreak
  | iterFail (newCursor : J)
  | records (recs : List J) (hasNext : Bool) (newCursor : J)

/-- Classify an HTTP-successful body of the repository listing. -/
def classifyOrgBody (data : J) : OrgClass :=
  match hasErrorsKey data with
  | Except.error _ => OrgClass.retry
  | Except.ok true => OrgClass.retry
  | Except.ok false =>
    match orgBodyParse data with
    | Except.error _ => OrgClass.retry
    | Except.ok (nodes, hn, ec) =>
      if truthy nodes then
        match pyIter nodes with
        | Except.error _ => OrgClass.iterFail ec
        | Except.ok recs => OrgClass.records recs (truthy hn) ec
      else OrgClass.emptyBreak

/-- Mutable state of the `while True` loop of `fetch_org_repos`: the
accumulated `repo_details`, the cursor variable, and the global token
index. -/
structure OrgState where
  rows : List RepoInfo
  cursor : J
  tokenIndex : Nat

/-- Replace the token index of a listing loop state. -/
def setTokO (st : OrgState) (t : Nat) : OrgState := { st with tokenIndex := t }

/-- Apply `switch_token` to the token index of a listing loop state. -/
def rotateOrg (n : Nat) (st : OrgState) : OrgState :=
  { st with tokenIndex := switch_token n st.tokenIndex }

/-- Result of a completed repository listing: the rows, the global token
index afterwards, and how many listing page requests were issued. -/
structure OrgResult where
  rows : List RepoInfo
  tokenIndex : Nat
  requests : Nat

/-- Count one more issued listing request in a run result. -/
def bumpReq : Option (OrgResult × List Resp) → Option (OrgResult × List Resp)
  | none => none
  | some (res, rem) => some ({ res with requests := res.requests + 1 }, rem)

/-- Run the `while True` loop of `fetch_org_repos` over a finite simulated
stream of listing responses, with `prOracle` supplying each repository's
pull-request responses. -/
def orgRun (n : Nat) (prOracle : J → List Resp) : OrgState → List Resp → Option (OrgResult × List Resp)
  | _, [] => none
  | st, r :: rs =>
    match r with
    | Resp.transport => bumpReq (orgRun n prOracle (rotateOrg n st) rs)
    | Resp.body data =>
      match classifyOrgBody data with
      | OrgClass.retry => bumpReq (orgRun n prOracle (rotateOrg n st) rs)
      | OrgClass.emptyBreak => some (⟨st.rows, st.tokenIndex, 1⟩, rs)
      | OrgClass.iterFail ec =>
        bumpReq (orgRun n prOracle (rotateOrg n { st with cursor := ec }) rs)
      | OrgClass.records recs hn ec =>
        match processRecords n prOracle st.tokenIndex recs with
        | PageOutcome.stuck => none
        | PageOutcome.aborted newRows ti =>
          bumpReq (orgRun n prOracle ⟨st.rows ++ newRows, ec, switch_token n ti⟩ rs)
        | PageOutcome.ok newRows ti =>
          if hn then bumpReq (orgRun n prOracle ⟨st.rows ++ newRows, ec, ti⟩ rs)
          else some (⟨st.rows ++ newRows, ti, 1⟩, rs)

/-- `fetch_org_repos`: `repo_details` starts empty, the cursor starts at
`None`. -/
def fetch_org_repos (n : Nat) (prOracle : J → List Resp) (ti : Nat) (stream : List Resp) :
    Option (OrgResult × List Resp) :=
  orgRun n prOracle ⟨[], J.null, ti⟩ stream

/-! ## Report emission (`main`) -/

/-- The fixed 16-column header (`fieldnames` in `main`). -/
def csvHeader : List String :=
  ["Repository Name", "Visibility", "Size (KB)", "Default Branch", "Total Commits",
   "Last Pusher", "Open Pull Requests", "Closed Pull Requests", "Open Issues",
   "Closed Issues", "Languages", "Total Releases", "Total Tags", "Last Pushed At",
   "Last Updated At", "Archived"]

/-- The cells of one emitted line, in `fieldnames` order (what
`csv.DictWriter.writerows` reads out of one `repo_info` dictionary). -/
def rowCells (r : RepoInfo) : List J :=
  [r.name, J.str r.visibility, r.sizeKB, r.defaultBranch, r.totalCommits,
   r.lastPusher, J.num (Int.ofNat r.openPullRequests), J.num (Int.ofNat r.closedPullRequests),
   r.openIssues, r.closedIssues, J.str r.languages, r.totalReleases, r.totalTags,
   r.lastPushedAt, r.lastUpdatedAt, J.str r.archived]

/-- The per-organization emission in `main`: a file (header plus one line
per row, in insertion order) when `repos` is non-empty, no file (and a
logged no-data notice) when it is empty. -/
def emitReport (rows : List RepoInfo) : Option (List String × List (List J)) :=
  if rows.isEmpty then none else some (csvHeader, rows.map rowCells)

/-! ## Simulated pages and specification-side counting -/

/-- The number of state strings equal to `OPEN` (the specification's
open-pull-request count). -/
def specOpenCount (sts : List String) : Nat :=
  List.countP (fun s => s == "OPEN") sts

/-- The number of state strings equal to `CLOSED` or `MERGED` (the
specification's closed-or-merged count). -/
def specClosedOrMergedCount (sts : List String) : Nat :=
  List.countP (fun s => s == "CLOSED" || s == "MERGED") sts

/-- A well-formed pull-request node carrying one state string. -/
def mkPRNode (st : String) : J := J.obj [("state", J.str st)]

/-- A well-formed page of the pull-request listing. -/
def mkPRPage (states : List String) (hn : Bool) : J :=
  J.obj [("data", J.obj [("repository", J.obj [("pullRequests", J.obj
    [("nodes", J.list (states.map mkPRNode)),
     ("pageInfo", J.obj [("hasNextPage", J.bool hn), ("endCursor", J.str "c")])])])])]

/-- A simulated exhausted pull-request listing: one well-formed page per
element, every page but the last reporting a next page. -/
def prPagesStream : List (List String) → List Resp
  | [] => []
  | sts :: rest => Resp.body (mkPRPage sts (!rest.isEmpty)) :: prPagesStream rest

/-- A well-formed page of the repository listing. -/
def mkOrgPage (recs : List J) (hn : Bool) : J :=
  J.obj [("data", J.obj [("organization", J.obj [("repositories", J.obj
    [("pageInfo", J.obj [("hasNextPage", J.bool hn), ("endCursor", J.str "oc")]),
     ("nodes", J.list recs)])])])]

/-- A simulated exhausted repository listing: one well-formed page per
element, every page but the last reporting a next page. -/
def orgPagesStream : List (List J) → List Resp
  | [] => []
  | recs :: rest => Resp.body (mkOrgPage recs (!rest.isEmpty)) :: orgPagesStream rest

/-- Whether one page entry is handled without reaching the page-level
handler and without getting stuck: it is skipped or yields a row. -/
def recCleanB (n : Nat) (po : J → List Resp) (ti : Nat) (rec : J) : Bool :=
  match processRecord n ti po rec with
  | some (RecOutcome.skip _) => true
  | some (RecOutcome.row _ _) => true
  | _ => false

/-! ## Views and invariance lemmas -/

/-- The token-index-free part of a pull-request run result. -/
def prView4 (p : PRResult × List Resp) : Nat × Nat × Nat × List Resp :=
  (p.1.openCount, p.1.closedCount, p.1.requests, p.2)

/-- The counters and the unconsumed stream of a pull-request run result. -/
def prCounts (p : PRResult × List Resp) : Nat × Nat × List Resp :=
  (p.1.openCount, p.1.closedCount, p.2)

/-- Increment the request count inside a `prView4` value. -/
def bump4 (v : Nat × Nat × Nat × List Resp) : Nat × Nat × Nat × List Resp :=
  (v.1, v.2.1, v.2.2.1 + 1, v.2.2.2)

theorem map_bumpPR (x : Option (PRResult × List Resp)) :
    Option.map prView4 (bumpPR x) = Option.map bump4 (Option.map prView4 x) := by
  cases x with
  | none => rfl
  | some p => obtain ⟨res, rem⟩ := p; rfl

/-- The counters, request count, and stream consumption of a pull-request
run do not depend on the token index it starts from. -/
theorem prRun_setTok (n : Nat) :
    ∀ (rs : List Resp) (s : PRState) (t : Nat),
      Option.map prView4 (prRun n (setTok s t) rs) = Option.map prView4 (prRun n s rs) := by
  intro rs
  induction rs with
  | nil => intro s t; rfl
  | cons r rs ih =>
    intro s t
    simp only [prRun]
    cases h : classifyPR r with
    | retry =>
      simp only [prStep, h]
      rw [map_bumpPR, map_bumpPR]
      exact congrArg (Option.map bump4) (ih (rotateTok n s) (switch_token n t))
    | retryCounted oi ci =>
      simp only [prStep, h]
      rw [map_bumpPR, map_bumpPR]
      exact congrArg (Option.map bump4)
        (ih (rotateTok n (PRState.mk (s.openCount + oi) (s.closedCount + ci) s.cursor s.tokenIndex))
          (switch_token n t))
    | advance oi ci c =>
      simp only [prStep, h]
      rw [map_bumpPR, map_bumpPR]
      exact congrArg (Option.map bump4)
        (ih (PRState.mk (s.openCount + oi) (s.closedCount + ci) c s.tokenIndex) t)
    | finish oi ci =>
      simp only [prStep, h]
      rfl

/-- The counting loop over well-formed nodes never raises and counts
exactly the `OPEN` and the `CLOSED`-or-`MERGED` states. -/
theorem countStates_map (sts : List String) :
    countStates (sts.map mkPRNode) =
      ⟨specOpenCount sts, specClosedOrMergedCount sts, false⟩ := by
  induction sts with
  | nil => rfl
  | cons s rest ih =>
    have hidx : pyIndexS (mkPRNode s) "state" = Except.ok (J.str s) := rfl
    have hpe : ∀ u : String, pyEqStr (J.str s) u = (s == u) := fun u => rfl
    simp only [List.map_cons, countStates, hidx, hpe, ih,
      specOpenCount, specClosedOrMergedCount, List.countP_cons]
    by_cases hc : s = "CLOSED"
    · subst hc; simp
    by_cases hm : s = "MERGED"
    · subst hm; simp
    by_cases ho : s = "OPEN"
    · subst ho; simp
    have hc' : (s == "CLOSED") = false := by simp [hc]
    have hm' : (s == "MERGED") = false := by simp [hm]
    have ho' : (s == "OPEN") = false := by simp [ho]
    simp [hc', hm', ho']

/-- Classification of a well-formed pull-request page: advance when a next
page is reported, finish otherwise, with the specified counter
increments. -/
theorem classify_mkPRPage (sts : List String) (hn : Bool) :
    classifyPR (Resp.body (mkPRPage sts hn)) =
      if hn then PRClass.advance (specOpenCount sts) (specClosedOrMergedCount sts) (J.str "c")
      else PRClass.finish (specOpenCount sts) (specClosedOrMergedCount sts) := by
  have h1 : hasErrorsKey (mkPRPage sts hn) = Except.ok false := rfl
  have h2 : prNodesOf (mkPRPage sts hn) = Except.ok (sts.map mkPRNode) := rfl
  have h3 : prHasNext (mkPRPage sts hn) = Except.ok (J.bool hn) := rfl
  have h4 : prEndCursor (mkPRPage sts hn) = Except.ok (J.str "c") := rfl
  simp only [classifyPR, classifyPRBody, h1, h2, h3, h4, countStates_map]
  cases hn with
  | false => rfl
  | true => rfl

/-- Running the pull-request loop over a simulated exhausted listing of
`K` pages consumes exactly the `K` pages, leaves any further responses
untouched, adds the specified counts, and preserves the token index. -/
theorem prRun_pages (n : Nat) :
    ∀ (pages : List (List String)) (junk : List Resp) (s : PRState),
      pages ≠ [] →
      prRun n s (prPagesStream pages ++ junk) =
        some (⟨s.openCount + specOpenCount pages.join,
               s.closedCount + specClosedOrMergedCount pages.join,
               s.tokenIndex, pages.length⟩, junk) := by
  intro pages
  induction pages with
  | nil => intro junk s h; exact absurd rfl h
  | cons p rest ih =>
    intro junk s _
    cases rest with
    | nil =>
      simp only [prPagesStream, List.isEmpty_nil, Bool.not_true, List.nil_append,
        List.cons_append, prRun, prStep, classify_mkPRPage, if_neg Bool.false_ne_true]
      simp [specOpenCount, specClosedOrMergedCount]
    | cons q rest' =>
      have hne : (q :: rest') ≠ ([] : List (List String)) := by simp
      have hcl : classifyPR (Resp.body (mkPRPage p true)) =
          PRClass.advance (specOpenCount p) (specClosedOrMergedCount p) (J.str "c") := by
        rw [classify_mkPRPage]; rfl
      have hstep : prStep n s (Resp.body (mkPRPage p true)) =
          PRStep.cont (PRState.mk (s.openCount + specOpenCount p)
            (s.closedCount + specClosedOrMergedCount p) (J.str "c") s.tokenIndex) := by
        simp [prStep, hcl]
      have hrun : prRun n s (Resp.body (mkPRPage p true) ::
          (prPagesStream (q :: rest') ++ junk)) =
          bumpPR (prRun n (PRState.mk (s.openCount + specOpenCount p)
            (s.closedCount + specClosedOrMergedCount p) (J.str "c") s.tokenIndex)
            (prPagesStream (q :: rest') ++ junk)) := by
        show (match prStep n s (Resp.body (mkPRPage p true)) with
          | PRStep.done o c t =>
            some (PRResult.mk o c t 1, prPagesStream (q :: rest') ++ junk)
          | PRStep.cont s' => bumpPR (prRun n s' (prPagesStream (q :: rest') ++ junk))) = _
        rw [hstep]
      show prRun n s (Resp.body (mkPRPage p true) ::
        (prPagesStream (q :: rest') ++ junk)) = _
      rw [hrun, ih junk _ hne]
      simp [bumpPR, specOpenCount, specClosedOrMergedCount, List.countP_append,
        Nat.add_assoc]

/-- The token-index-free part of a record outcome. -/
def outView : RecOutcome → Option RepoInfo × Bool
  | RecOutcome.skip _ => (none, false)
  | RecOutcome.row r _ => (some r, false)
  | RecOutcome.abortPage _ => (none, true)

/-- How one page entry is handled does not depend on the current token
index: same skip/row/abort kind and same row content. -/
theorem processRecord_tok (n : Nat) (po : J → List Resp) (rec : J) (ti ti' : Nat) :
    Option.map outView (processRecord n ti po rec) =
      Option.map outView (processRecord n ti' po rec) := by
  unfold processRecord
  cases hnull : isNull rec with
  | true => simp [hnull, outView]
  | false =>
    simp only [hnull, Bool.false_eq_true, if_false]
    cases hpre : normalizePre rec with
    | error e => cases hobj : isObj rec <;> simp [outView]
    | ok pre =>
      have hv : Option.map prView4 (prRun n (PRState.mk 0 0 J.null ti) (po pre.name)) =
          Option.map prView4 (prRun n (PRState.mk 0 0 J.null ti') (po pre.name)) :=
        prRun_setTok n (po pre.name) (PRState.mk 0 0 J.null ti') ti
      unfold fetch_pull_requests_count
      dsimp only
      cases h1 : prRun n (PRState.mk 0 0 J.null ti) (po pre.name) with
      | none =>
        cases h2 : prRun n (PRState.mk 0 0 J.null ti') (po pre.name) with
        | none => rfl
        | some q => rw [h1, h2] at hv; simp at hv
      | some p =>
        cases h2 : prRun n (PRState.mk 0 0 J.null ti') (po pre.name) with
        | none => rw [h1, h2] at hv; simp at hv
        | some q =>
          rw [h1, h2] at hv
          obtain ⟨res, rem⟩ := p
          obtain ⟨res', rem'⟩ := q
          simp only [Option.map_some', Option.some.injEq, prView4, Prod.mk.injEq] at hv
          obtain ⟨ho, hc, hq, hr⟩ := hv
          cases hpost : normalizePost rec with
          | error e => cases hobj : isObj rec <;> simp [outView]
          | ok post => simp [outView, mkRow, ho, hc]

/-- The token-index-free part of a page outcome. -/
def pageView : PageOutcome → Option (List RepoInfo × Bool)
  | PageOutcome.ok rows _ => some (rows, false)
  | PageOutcome.aborted rows _ => some (rows, true)
  | PageOutcome.stuck => none

/-- How a page of entries is handled does not depend on the current token
index: same rows and same completed/aborted/stuck kind. -/
theorem processRecords_tok (n : Nat) (po : J → List Resp) :
    ∀ (recs : List J) (ti ti' : Nat),
      pageView (processRecords n po ti recs) = pageView (processRecords n po ti' recs) := by
  intro recs
  induction recs with
  | nil => intro ti ti'; rfl
  | cons rec rest ih =>
    intro ti ti'
    have h := processRecord_tok n po rec ti ti'
    simp only [processRecords]
    cases h1 : processRecord n ti po rec with
    | none =>
      cases h2 : processRecord n ti' po rec with
      | none => rfl
      | some o => rw [h1, h2] at h; simp at h
    | some o =>
      cases h2 : processRecord n ti' po rec with
      | none => rw [h1, h2] at h; simp at h
      | some o' =>
        rw [h1, h2] at h
        simp only [Option.map_some'] at h
        cases o with
        | skip t1 =>
          cases o' with
          | skip t2 => exact ih t1 t2
          | row r t2 => simp [outView] at h
          | abortPage t2 => simp [outView] at h
        | row r t1 =>
          cases o' with
          | skip t2 => simp [outView] at h
          | abortPage t2 => simp [outView] at h
          | row r' t2 =>
            have hr : r = r' := by simpa [outView] using h
            subst hr
            have hrest := ih t1 t2
            cases hh1 : processRecords n po t1 rest <;>
              cases hh2 : processRecords n po t2 rest <;>
              rw [hh1, hh2] at hrest <;>
              simp_all [pageView]
        | abortPage t1 =>
          cases o' with
          | skip t2 => simp [outView] at h
          | row r t2 => simp [outView] at h
          | abortPage t2 => rfl

/-- The token-index-free part of a listing run result. -/
def orgView (p : OrgResult × List Resp) : List RepoInfo × Nat × List Resp :=
  (p.1.rows, p.1.requests, p.2)

/-- Increment the request count inside an `orgView` value. -/
def bumpO (v : List RepoInfo × Nat × List Resp) : List RepoInfo × Nat × List Resp :=
  (v.1, v.2.1 + 1, v.2.2)

theorem map_bumpReq (x : Option (OrgResult × List Resp)) :
    Option.map orgView (bumpReq x) = Option.map bumpO (Option.map orgView x) := by
  cases x with
  | none => rfl
  | some p => obtain ⟨res, rem⟩ := p; rfl

/-- The rows, request count, and stream consumption of a listing run do
not depend on the token index it starts from. -/
theorem orgRun_setTok (n : Nat) (po : J → List Resp) :
    ∀ (rs : List Resp) (st : OrgState) (t : Nat),
      Option.map orgView (orgRun n po (setTokO st t) rs) =
        Option.map orgView (orgRun n po st rs) := by
  intro rs
  induction rs with
  | nil => intro st t; rfl
  | cons r rs ih =>
    intro st t
    cases r with
    | transport =>
      simp only [orgRun]
      rw [map_bumpReq, map_bumpReq]
      exact congrArg (Option.map bumpO) (ih (rotateOrg n st) (switch_token n t))
    | body data =>
      simp only [orgRun]
      cases hc : classifyOrgBody data with
      | retry =>
        rw [map_bumpReq, map_bumpReq]
        exact congrArg (Option.map bumpO) (ih (rotateOrg n st) (switch_token n t))
      | emptyBreak => rfl
      | iterFail ec =>
        rw [map_bumpReq, map_bumpReq]
        exact congrArg (Option.map bumpO)
          (ih (rotateOrg n (OrgState.mk st.rows ec st.tokenIndex)) (switch_token n t))
      | records recs hn ec =>
        dsimp only
        have e : (setTokO st t).tokenIndex = t := rfl
        rw [e]
        have hp := processRecords_tok n po recs t st.tokenIndex
        cases h1 : processRecords n po t recs with
        | stuck =>
          cases h2 : processRecords n po st.tokenIndex recs with
          | stuck => rfl
          | ok rows2 ti2 => rw [h1, h2] at hp; simp [pageView] at hp
          | aborted rows2 ti2 => rw [h1, h2] at hp; simp [pageView] at hp
        | aborted rows1 ti1 =>
          cases h2 : processRecords n po st.tokenIndex recs with
          | stuck => rw [h1, h2] at hp; simp [pageView] at hp
          | ok rows2 ti2 => rw [h1, h2] at hp; simp [pageView] at hp
          | aborted rows2 ti2 =>
            rw [h1, h2] at hp
            have hrows : rows1 = rows2 := by simpa [pageView] using hp
            subst hrows
            rw [map_bumpReq, map_bumpReq]
            exact congrArg (Option.map bumpO)
              (ih (OrgState.mk (st.rows ++ rows1) ec (switch_token n ti2)) (switch_token n ti1))
        | ok rows1 ti1 =>
          cases h2 : processRecords n po st.tokenIndex recs with
          | stuck => rw [h1, h2] at hp; simp [pageView] at hp
          | aborted rows2 ti2 => rw [h1, h2] at hp; simp [pageView] at hp
          | ok rows2 ti2 =>
            rw [h1, h2] at hp
            have hrows : rows1 = rows2 := by simpa [pageView] using hp
            subst hrows
            cases hn with
            | false => rfl
            | true =>
              dsimp only
              rw [if_pos rfl, if_pos rfl, map_bumpReq, map_bumpReq]
              exact congrArg (Option.map bumpO)
                (ih (OrgState.mk (st.rows ++ rows1) ec ti2) ti1)

/-- `recCleanB` expressed through the token-index-free view. -/
theorem recCleanB_eq_view (n : Nat) (po : J → List Resp) (ti : Nat) (rec : J) :
    recCleanB n po ti rec =
      (match Option.map outView (processRecord n ti po rec) with
        | some (_, false) => true
        | _ => false) := by
  cases h : processRecord n ti po rec with
  | none => simp [recCleanB, h]
  | some o => cases o <;> simp [recCleanB, h, outView]

/-- Whether a page entry is clean does not depend on the token index. -/
theorem recCleanB_tok (n : Nat) (po : J → List Resp) (ti : Nat) (rec : J) :
    recCleanB n po ti rec = recCleanB n po 0 rec := by
  rw [recCleanB_eq_view, recCleanB_eq_view, processRecord_tok n po rec ti 0]

/-- A page whose entries are all clean is processed to completion, in any
token state. -/
theorem processRecords_ok (n : Nat) (po : J → List Resp) :
    ∀ (recs : List J) (ti : Nat),
      (∀ rec ∈ recs, recCleanB n po 0 rec = true) →
      ∃ rows ti', processRecords n po ti recs = PageOutcome.ok rows ti' := by
  intro recs
  induction recs with
  | nil => intro ti _; exact ⟨[], ti, rfl⟩
  | cons rec rest ih =>
    intro ti h
    have hc : recCleanB n po ti rec = true := by
      rw [recCleanB_tok]; exact h rec (List.mem_cons_self rec rest)
    unfold recCleanB at hc
    cases h1 : processRecord n ti po rec with
    | none => rw [h1] at hc; simp at hc
    | some o =>
      rw [h1] at hc
      cases o with
      | skip t2 =>
        obtain ⟨rows, ti', h2⟩ := ih t2 (fun r hr => h r (List.mem_cons_of_mem _ hr))
        exact ⟨rows, ti', by simp [processRecords, h1, h2]⟩
      | row r t2 =>
        obtain ⟨rows, ti', h2⟩ := ih t2 (fun r hr => h r (List.mem_cons_of_mem _ hr))
        exact ⟨r :: rows, ti', by simp [processRecords, h1, h2]⟩
      | abortPage t2 => simp at hc

/-- Classification of a well-formed repository page: break on an empty
node list, otherwise the records with the paging data. -/
theorem classify_mkOrgPage (recs : List J) (hn : Bool) :
    classifyOrgBody (mkOrgPage recs hn) =
      match recs with
      | [] => OrgClass.emptyBreak
      | _ :: _ => OrgClass.records recs hn (J.str "oc") := by
  have h1 : hasErrorsKey (mkOrgPage recs hn) = Except.ok false := rfl
  have h2 : orgBodyParse (mkOrgPage recs hn) =
      Except.ok (J.list recs, J.bool hn, J.str "oc") := rfl
  simp only [classifyOrgBody, h1, h2]
  cases recs with
  | nil => rfl
  | cons a rest => rfl

/-- Running the repository listing over a simulated exhausted listing of
`K` non-empty pages of clean records consumes exactly the `K` pages,
leaves any further responses untouched, and issues exactly `K` page
requests. -/
theorem orgRun_pages (n : Nat) (po : J → List Resp) :
    ∀ (pages : List (List J)) (junk : List Resp) (st : OrgState),
      pages ≠ [] →
      (∀ p ∈ pages, p ≠ []) →
      (∀ rec ∈ pages.join, recCleanB n po 0 rec = true) →
      ∃ rows ti, orgRun n po st (orgPagesStream pages ++ junk) =
        some (⟨rows, ti, pages.length⟩, junk) := by
  intro pages
  induction pages with
  | nil => intro junk st h; exact absurd rfl h
  | cons p rest ih =>
    intro junk st _ hne hcl
    have hpne : p ≠ [] := hne p (List.mem_cons_self p rest)
    have hclean : ∀ rec ∈ p, recCleanB n po 0 rec = true := by
      intro rec hr
      exact hcl rec (by rw [List.mem_join]; exact ⟨p, List.mem_cons_self p rest, hr⟩)
    obtain ⟨rows1, ti1, h1⟩ := processRecords_ok n po p st.tokenIndex hclean
    cases rest with
    | nil =>
      have hcls : classifyOrgBody (mkOrgPage p false) =
          OrgClass.records p false (J.str "oc") := by
        rw [classify_mkOrgPage]
        cases p with
        | nil => exact absurd rfl hpne
        | cons a r => rfl
      refine ⟨st.rows ++ rows1, ti1, ?_⟩
      show orgRun n po st (Resp.body (mkOrgPage p false) :: ([] ++ junk)) = _
      rw [List.nil_append]
      show (match Resp.body (mkOrgPage p false) with
        | Resp.transport => bumpReq (orgRun n po (rotateOrg n st) junk)
        | Resp.body data =>
          match classifyOrgBody data with
          | OrgClass.retry => bumpReq (orgRun n po (rotateOrg n st) junk)
          | OrgClass.emptyBreak => some (⟨st.rows, st.tokenIndex, 1⟩, junk)
          | OrgClass.iterFail ec =>
            bumpReq (orgRun n po (rotateOrg n { st with cursor := ec }) junk)
          | OrgClass.records recs hn ec =>
            match processRecords n po st.tokenIndex recs with
            | PageOutcome.stuck => none
            | PageOutcome.aborted newRows ti =>
              bumpReq (orgRun n po ⟨st.rows ++ newRows, ec, switch_token n ti⟩ junk)
            | PageOutcome.ok newRows ti =>
              if hn then bumpReq (orgRun n po ⟨st.rows ++ newRows, ec, ti⟩ junk)
              else some (⟨st.rows ++ newRows, ti, 1⟩, junk)) = _
      dsimp only
      rw [hcls]
      dsimp only
      rw [h1]
      rfl
    | cons q rest' =>
      have hcls : classifyOrgBody (mkOrgPage p true) =
          OrgClass.records p true (J.str "oc") := by
        rw [classify_mkOrgPage]
        cases p with
        | nil => exact absurd rfl hpne
        | cons a r => rfl
      have hrec : ∀ rec ∈ (q :: rest').join, recCleanB n po 0 rec = true := by
        intro rec hr
        rw [List.mem_join] at hr
        obtain ⟨s, hs, hrs⟩ := hr
        exact hcl rec (by rw [List.mem_join]; exact ⟨s, List.mem_cons_of_mem _ hs, hrs⟩)
      obtain ⟨rows2, ti2, h2⟩ := ih junk
        (OrgState.mk (st.rows ++ rows1) (J.str "oc") ti1) (by simp) (fun s hs => hne s (List.mem_cons_of_mem _ hs)) hrec
      refine ⟨rows2, ti2, ?_⟩
      show orgRun n po st (Resp.body (mkOrgPage p true) ::
        (orgPagesStream (q :: rest') ++ junk)) = _
      show (match Resp.body (mkOrgPage p true) with
        | Resp.transport =>
          bumpReq (orgRun n po (rotateOrg n st) (orgPagesStream (q :: rest') ++ junk))
        | Resp.body data =>
          match classifyOrgBody data with
          | OrgClass.retry =>
            bumpReq (orgRun n po (rotateOrg n st) (orgPagesStream (q :: rest') ++ junk))
          | OrgClass.emptyBreak => some (⟨st.rows, st.tokenIndex, 1⟩, orgPagesStream (q :: rest') ++ junk)
          | OrgClass.iterFail ec =>
            bumpReq (orgRun n po (rotateOrg n { st with cursor := ec })
              (orgPagesStream (q :: rest') ++ junk))
          | OrgClass.records recs hn ec =>
            match processRecords n po st.tokenIndex recs with
            | PageOutcome.stuck => none
            | PageOutcome.aborted newRows ti =>
              bumpReq (orgRun n po ⟨st.rows ++ newRows, ec, switch_token n ti⟩
                (orgPagesStream (q :: rest') ++ junk))
            | PageOutcome.ok newRows ti =>
              if hn then bumpReq (orgRun n po ⟨st.rows ++ newRows, ec, ti⟩
                (orgPagesStream (q :: rest') ++ junk))
              else some (⟨st.rows ++ newRows, ti, 1⟩, orgPagesStream (q :: rest') ++ junk)) = _
      dsimp only
      rw [hcls]
      dsimp only
      rw [h1]
      dsimp only
      rw [if_pos rfl, h2]
      rfl

/-- The loop body can only reach `break` on a body with no top-level
errors list whose `hasNextPage` was successfully read and is falsy. -/
theorem classifyPRBody_finish (data : J) (o c : Nat)
    (h : classifyPRBody data = PRClass.finish o c) :
    hasErrorsKey data = Except.ok false ∧
      ∃ hn, prHasNext data = Except.ok hn ∧ truthy hn = false := by
  unfold classifyPRBody at h
  cases h1 : hasErrorsKey data with
  | error e => rw [h1] at h; simp at h
  | ok b =>
    rw [h1] at h
    cases b with
    | true => simp at h
    | false =>
      cases h2 : prNodesOf data with
      | error e => rw [h2] at h; simp at h
      | ok nodes =>
        rw [h2] at h
        dsimp only at h
        cases h3 : (countStates nodes).raised with
        | true => rw [h3] at h; simp at h
        | false =>
          rw [h3] at h
          simp only [Bool.false_eq_true, if_false] at h
          cases h4 : prHasNext data with
          | error e => rw [h4] at h; simp at h
          | ok hn =>
            rw [h4] at h
            dsimp only at h
            cases h5 : truthy hn with
            | true =>
              rw [h5] at h
              simp only [if_true] at h
              cases h6 : prEndCursor data with
              | error e => rw [h6] at h; simp at h
              | ok ec => rw [h6] at h; simp at h
            | false => exact ⟨rfl, hn, rfl, h5⟩

/-- The rows and the unconsumed stream of a listing run result. -/
def orgRowsRem (p : OrgResult × List Resp) : List RepoInfo × List Resp :=
  (p.1.rows, p.2)

theorem map_prCounts_bumpPR (x : Option (PRResult × List Resp)) :
    Option.map prCounts (bumpPR x) = Option.map prCounts x := by
  cases x with
  | none => rfl
  | some p => obtain ⟨res, rem⟩ := p; rfl

theorem map_orgRowsRem_bumpReq (x : Option (OrgResult × List Resp)) :
    Option.map orgRowsRem (bumpReq x) = Option.map orgRowsRem x := by
  cases x with
  | none => rfl
  | some p => obtain ⟨res, rem⟩ := p; rfl

/-- The counters and stream consumption of a pull-request run do not
depend on the starting token index. -/
theorem prRun_counts_setTok (n : Nat) (rs : List Resp) (s : PRState) (t : Nat) :
    Option.map prCounts (prRun n (setTok s t) rs) = Option.map prCounts (prRun n s rs) := by
  have h := prRun_setTok n rs s t
  cases h1 : prRun n (setTok s t) rs with
  | none =>
    cases h2 : prRun n s rs with
    | none => rfl
    | some q => rw [h1, h2] at h; simp at h
  | some p =>
    cases h2 : prRun n s rs with
    | none => rw [h1, h2] at h; simp at h
    | some q =>
      rw [h1, h2] at h
      obtain ⟨res, rem⟩ := p
      obtain ⟨res', rem'⟩ := q
      simp only [Option.map_some', Option.some.injEq, prView4, Prod.mk.injEq] at h
      obtain ⟨ho, hc, hq, hr⟩ := h
      simp [prCounts, ho, hc, hr]

/-- The rows and stream consumption of a listing run do not depend on the
starting token index. -/
theorem orgRun_rows_setTok (n : Nat) (po : J → List Resp) (rs : List Resp)
    (st : OrgState) (t : Nat) :
    Option.map orgRowsRem (orgRun n po (setTokO st t) rs) =
      Option.map orgRowsRem (orgRun n po st rs) := by
  have h := orgRun_setTok n po rs st t
  cases h1 : orgRun n po (setTokO st t) rs with
  | none =>
    cases h2 : orgRun n po st rs with
    | none => rfl
    | some q => rw [h1, h2] at h; simp at h
  | some p =>
    cases h2 : orgRun n po st rs with
    | none => rw [h1, h2] at h; simp at h
    | some q =>
      rw [h1, h2] at h
      obtain ⟨res, rem⟩ := p
      obtain ⟨res', rem'⟩ := q
      simp only [Option.map_some', Option.some.injEq, orgView, Prod.mk.injEq] at h
      obtain ⟨ho, hc, hr⟩ := h
      simp [orgRowsRem, ho, hr]

/-- A response classified for retry contributes nothing to the counters:
the run on the remaining stream is count-for-count the same. -/
theorem prRun_retry_cons (n : Nat) (s : PRState) (r : Resp) (rest : List Resp)
    (hcl : classifyPR r = PRClass.retry) :
    Option.map prCounts (prRun n s (r :: rest)) = Option.map prCounts (prRun n s rest) := by
  have hstep : prStep n s r = PRStep.cont (rotateTok n s) := by
    unfold prStep; rw [hcl]
  have hrun : prRun n s (r :: rest) = bumpPR (prRun n (rotateTok n s) rest) := by
    show (match prStep n s r with
      | PRStep.done o c t => some (PRResult.mk o c t 1, rest)
      | PRStep.cont s' => bumpPR (prRun n s' rest)) = _
    rw [hstep]
  rw [hrun, map_prCounts_bumpPR]
  exact prRun_counts_setTok n rest s (switch_token n s.tokenIndex)

/-- One unfolding of the listing loop. -/
theorem orgRun_cons (n : Nat) (po : J → List Resp) (st : OrgState) (r : Resp)
    (rs : List Resp) :
    orgRun n po st (r :: rs) =
      match r with
      | Resp.transport => bumpReq (orgRun n po (rotateOrg n st) rs)
      | Resp.body data =>
        match classifyOrgBody data with
        | OrgClass.retry => bumpReq (orgRun n po (rotateOrg n st) rs)
        | OrgClass.emptyBreak => some (⟨st.rows, st.tokenIndex, 1⟩, rs)
        | OrgClass.iterFail ec =>
          bumpReq (orgRun n po (rotateOrg n { st with cursor := ec }) rs)
        | OrgClass.records recs hn ec =>
          match processRecords n po st.tokenIndex recs with
          | PageOutcome.stuck => none
          | PageOutcome.aborted newRows ti =>
            bumpReq (orgRun n po ⟨st.rows ++ newRows, ec, switch_token n ti⟩ rs)
          | PageOutcome.ok newRows ti =>
            if hn then bumpReq (orgRun n po ⟨st.rows ++ newRows, ec, ti⟩ rs)
            else some (⟨st.rows ++ newRows, ti, 1⟩, rs) := rfl

/-- A listing response classified for retry contributes no rows: the run
on the remaining stream yields row-for-row the same result. -/
theorem orgRun_retry_cons (n : Nat) (po : J → List Resp) (st : OrgState) (data : J)
    (rest : List Resp) (hcl : classifyOrgBody data = OrgClass.retry) :
    Option.map orgRowsRem (orgRun n po st (Resp.body data :: rest)) =
      Option.map orgRowsRem (orgRun n po st rest) := by
  rw [orgRun_cons]
  dsimp only
  rw [hcl]
  dsimp only
  rw [map_orgRowsRem_bumpReq]
  exact orgRun_rows_setTok n po rest st (switch_token n st.tokenIndex)

/-- A row produced from one page entry carries exactly the counters of a
completed pull-request drain on that repository's response stream. -/
theorem processRecord_row (n ti : Nat) (po : J → List Resp) (rec : J)
    (r : RepoInfo) (t' : Nat)
    (h : processRecord n ti po rec = some (RecOutcome.row r t')) :
    ∃ prRes prRem, prRun n ⟨0, 0, J.null, ti⟩ (po r.name) = some (prRes, prRem) ∧
      r.openPullRequests = prRes.openCount ∧
      r.closedPullRequests = prRes.closedCount := by
  unfold processRecord at h
  cases hnull : isNull rec with
  | true => rw [hnull] at h; simp at h
  | false =>
    rw [hnull] at h
    simp only [Bool.false_eq_true, if_false] at h
    cases hpre : normalizePre rec with
    | error e => rw [hpre] at h; cases hobj : isObj rec <;> rw [hobj] at h <;> simp at h
    | ok pre =>
      rw [hpre] at h
      dsimp only at h
      unfold fetch_pull_requests_count at h
      cases hf : prRun n ⟨0, 0, J.null, ti⟩ (po pre.name) with
      | none => rw [hf] at h; simp at h
      | some p =>
        rw [hf] at h
        obtain ⟨res, rem2⟩ := p
        cases hpost : normalizePost rec with
        | error e => rw [hpost] at h; cases hobj : isObj rec <;> rw [hobj] at h <;> simp at h
        | ok post =>
          rw [hpost] at h
          simp only [Option.some.injEq, RecOutcome.row.injEq] at h
          obtain ⟨hr, ht⟩ := h
          subst hr
          exact ⟨res, rem2, hf, rfl, rfl⟩

/-- Every row a page processing produces (also a partial, aborted page)
carries the counters of a completed pull-request drain. -/
theorem processRecords_rows (n : Nat) (po : J → List Resp) :
    ∀ (recs : List J) (ti : Nat) (rows : List RepoInfo) (t' : Nat),
      (processRecords n po ti recs = PageOutcome.ok rows t' ∨
       processRecords n po ti recs = PageOutcome.aborted rows t') →
      ∀ row ∈ rows, ∃ t prRes prRem,
        prRun n ⟨0, 0, J.null, t⟩ (po row.name) = some (prRes, prRem) ∧
        row.openPullRequests = prRes.openCount ∧
        row.closedPullRequests = prRes.closedCount := by
  intro recs
  induction recs with
  | nil =>
    intro ti rows t' h row hrow
    rcases h with h | h
    · simp only [processRecords, PageOutcome.ok.injEq] at h
      rw [← h.1] at hrow
      simp at hrow
    · simp [processRecords] at h
  | cons rec rest ih =>
    intro ti rows t' h row hrow
    rcases hrec : processRecord n ti po rec with _ | o
    · rcases h with h | h <;> simp only [processRecords, hrec] at h <;>
        exact PageOutcome.noConfusion h
    · cases o with
      | skip t2 =>
        have h' : processRecords n po t2 rest = PageOutcome.ok rows t' ∨
            processRecords n po t2 rest = PageOutcome.aborted rows t' := by
          rcases h with h | h <;> simp only [processRecords, hrec] at h <;>
            [exact Or.inl h; exact Or.inr h]
        exact ih t2 rows t' h' row hrow
      | abortPage t2 =>
        rcases h with h | h
        · simp only [processRecords, hrec] at h
          exact PageOutcome.noConfusion h
        · simp only [processRecords, hrec, PageOutcome.aborted.injEq] at h
          rw [← h.1] at hrow
          simp at hrow
      | row r t2 =>
        cases hrest : processRecords n po t2 rest with
        | ok rows2 t3 =>
          rcases h with h | h
          · simp only [processRecords, hrec, hrest, PageOutcome.ok.injEq] at h
            rw [← h.1] at hrow
            rcases List.mem_cons.mp hrow with hh | hh
            · subst hh
              obtain ⟨prRes, prRem, ha, hb, hc⟩ := processRecord_row n ti po rec row t2 hrec
              exact ⟨ti, prRes, prRem, ha, hb, hc⟩
            · exact ih t2 rows2 t3 (Or.inl hrest) row hh
          · simp only [processRecords, hrec, hrest] at h
            exact PageOutcome.noConfusion h
        | aborted rows2 t3 =>
          rcases h with h | h
          · simp only [processRecords, hrec, hrest] at h
            exact PageOutcome.noConfusion h
          · simp only [processRecords, hrec, hrest, PageOutcome.aborted.injEq] at h
            rw [← h.1] at hrow
            rcases List.mem_cons.mp hrow with hh | hh
            · subst hh
              obtain ⟨prRes, prRem, ha, hb, hc⟩ := processRecord_row n ti po rec row t2 hrec
              exact ⟨ti, prRes, prRem, ha, hb, hc⟩
            · exact ih t2 rows2 t3 (Or.inr hrest) row hh
        | stuck =>
          rcases h with h | h <;> simp only [processRecords, hrec, hrest] at h <;>
            exact PageOutcome.noConfusion h

theorem bumpReq_some (x : Option (OrgResult × List Resp)) (res : OrgResult)
    (rem : List Resp) (h : bumpReq x = some (res, rem)) :
    ∃ res0, x = some (res0, rem) ∧ res0.rows = res.rows := by
  cases x with
  | none => simp [bumpReq] at h
  | some p =>
    obtain ⟨res0, rem0⟩ := p
    simp only [bumpReq, Option.some.injEq, Prod.mk.injEq] at h
    obtain ⟨h1, h2⟩ := h
    exact ⟨res0, by rw [h2], by rw [← h1]⟩

/-- Every row in the output of the listing loop that is not an initial row
carries the counters of a completed pull-request drain on that
repository's stream. -/
theorem orgRun_rows (n : Nat) (po : J → List Resp) :
    ∀ (stream : List Resp) (st : OrgState) (res : OrgResult) (rem : List Resp),
      orgRun n po st stream = some (res, rem) →
      ∀ row ∈ res.rows, row ∈ st.rows ∨ ∃ t prRes prRem,
        prRun n ⟨0, 0, J.null, t⟩ (po row.name) = some (prRes, prRem) ∧
        row.openPullRequests = prRes.openCount ∧
        row.closedPullRequests = prRes.closedCount := by
  intro stream
  induction stream with
  | nil => intro st res rem h; simp [orgRun] at h
  | cons r rs ih =>
    intro st res rem h row hrow
    rw [orgRun_cons] at h
    cases r with
    | transport =>
      dsimp only at h
      obtain ⟨res0, h0, hrows⟩ := bumpReq_some _ _ _ h
      rw [← hrows] at hrow
      exact ih (rotateOrg n st) res0 rem h0 row hrow
    | body data =>
      dsimp only at h
      cases hc : classifyOrgBody data with
      | retry =>
        rw [hc] at h
        dsimp only at h
        obtain ⟨res0, h0, hrows⟩ := bumpReq_some _ _ _ h
        rw [← hrows] at hrow
        exact ih (rotateOrg n st) res0 rem h0 row hrow
      | emptyBreak =>
        rw [hc] at h
        dsimp only at h
        simp only [Option.some.injEq, Prod.mk.injEq] at h
        rw [← h.1] at hrow
        exact Or.inl hrow
      | iterFail ec =>
        rw [hc] at h
        dsimp only at h
        obtain ⟨res0, h0, hrows⟩ := bumpReq_some _ _ _ h
        rw [← hrows] at hrow
        exact ih (rotateOrg n { st with cursor := ec }) res0 rem h0 row hrow
      | records recs hn ec =>
        rw [hc] at h
        dsimp only at h
        cases hp : processRecords n po st.tokenIndex recs with
        | stuck => rw [hp] at h; simp at h
        | aborted newRows ti =>
          rw [hp] at h
          dsimp only at h
          obtain ⟨res0, h0, hrows⟩ := bumpReq_some _ _ _ h
          rw [← hrows] at hrow
          rcases ih _ res0 rem h0 row hrow with hmem | hex
          · rcases List.mem_append.mp hmem with hl | hr2
            · exact Or.inl hl
            · exact Or.inr
                (processRecords_rows n po recs st.tokenIndex newRows ti (Or.inr hp) row hr2)
          · exact Or.inr hex
        | ok newRows ti =>
          rw [hp] at h
          dsimp only at h
          cases hn with
          | true =>
            rw [if_pos rfl] at h
            obtain ⟨res0, h0, hrows⟩ := bumpReq_some _ _ _ h
            rw [← hrows] at hrow
            rcases ih _ res0 rem h0 row hrow with hmem | hex
            · rcases List.mem_append.mp hmem with hl | hr2
              · exact Or.inl hl
              · exact Or.inr
                  (processRecords_rows n po recs st.tokenIndex newRows ti (Or.inl hp) row hr2)
            · exact Or.inr hex
          | false =>
            rw [if_neg (by simp)] at h
            simp only [Option.some.injEq, Prod.mk.injEq] at h
            rw [← h.1] at hrow
            rcases List.mem_append.mp hrow with hl | hr2
            · exact Or.inl hl
            · exact Or.inr
                (processRecords_rows n po recs st.tokenIndex newRows ti (Or.inl hp) row hr2)

/-! ## Claims -/

/-- C8: for every non-empty credential set of size `N` and starting index
`i < N`, one rotation sets the index to `(i + 1) % N` (staying in range),
`N` successive rotations return it to `i`, reading the headers leaves the
index unchanged, and inside the fetch loop the index is either untouched
or changed exactly by `switch_token`. -/
theorem c8_rotation_cyclic (N i : Nat) (hN : 0 < N) (hi : i < N) :
    switch_token N i = (i + 1) % N ∧
    switch_token N i < N ∧
    (switch_token N)^[N] i = i ∧
    (∀ tokens : List String, (get_headers_state tokens i).2 = i) ∧
    (∀ (s : PRState) (r : Resp) (s' : PRState), prStep N s r = PRStep.cont s' →
      s'.tokenIndex = s.tokenIndex ∨ s'.tokenIndex = switch_token N s.tokenIndex) := by
  have hiter : ∀ (k j : Nat), j < N → (switch_token N)^[k] j = (j + k) % N := by
    intro k
    induction k with
    | zero => intro j hj; simpa using (Nat.mod_eq_of_lt hj).symm
    | succ k ihk =>
      intro j hj
      rw [Function.iterate_succ_apply, ihk (switch_token N j) (Nat.mod_lt _ hN)]
      show ((j + 1) % N + k) % N = _
      rw [Nat.mod_add_mod]
      congr 1
      omega
  refine ⟨rfl, Nat.mod_lt _ hN, ?_, fun tokens => rfl, ?_⟩
  · rw [hiter N i hi, Nat.add_mod_right, Nat.mod_eq_of_lt hi]
  · intro s r s' hs
    unfold prStep at hs
    cases hc : classifyPR r with
    | retry =>
      rw [hc] at hs
      dsimp only at hs
      injection hs with h
      rw [← h]
      exact Or.inr rfl
    | retryCounted oi ci =>
      rw [hc] at hs
      dsimp only at hs
      injection hs with h
      rw [← h]
      exact Or.inr rfl
    | advance oi ci c =>
      rw [hc] at hs
      dsimp only at hs
      injection hs with h
      rw [← h]
      exact Or.inl rfl
    | finish oi ci =>
      rw [hc] at hs
      dsimp only at hs
      exact PRStep.noConfusion hs

/-- Witness for C8 at `N = 3`, `i = 1`. -/
theorem c8_rotation_cyclic_witness :
    switch_token 3 1 = (1 + 1) % 3 ∧ (switch_token 3)^[3] 1 = 1 :=
  ⟨(c8_rotation_cyclic 3 1 (by decide) (by decide)).1,
   (c8_rotation_cyclic 3 1 (by decide) (by decide)).2.2.1⟩

/-- C4: across any simulated exhausted listing, the counter returns
exactly the number of `OPEN` states and the number of `CLOSED` or
`MERGED` states, every other state string counting for neither and
raising nothing; in particular `[OPEN, CLOSED, MERGED, OPEN]` yields
`(open = 2, closed_or_merged = 2)`. -/
theorem c4_state_classification (n ti : Nat) (pages : List (List String))
    (hne : pages ≠ []) :
    prRun n ⟨0, 0, J.null, ti⟩ (prPagesStream pages) =
      some (⟨specOpenCount pages.join, specClosedOrMergedCount pages.join,
             ti, pages.length⟩, []) ∧
    specOpenCount ["OPEN", "CLOSED", "MERGED", "OPEN"] = 2 ∧
    specClosedOrMergedCount ["OPEN", "CLOSED", "MERGED", "OPEN"] = 2 := by
  refine ⟨?_, by decide, by decide⟩
  have h := prRun_pages n pages [] ⟨0, 0, J.null, ti⟩ hne
  rw [List.append_nil] at h
  simpa using h

/-- Witness for C4 on the page `[OPEN, CLOSED, MERGED, OPEN]`. -/
theorem c4_state_classification_witness :
    prRun 1 ⟨0, 0, J.null, 0⟩ (prPagesStream [["OPEN", "CLOSED", "MERGED", "OPEN"]]) =
      some (⟨specOpenCount ([["OPEN", "CLOSED", "MERGED", "OPEN"]].join),
             specClosedOrMergedCount ([["OPEN", "CLOSED", "MERGED", "OPEN"]].join),
             0, [["OPEN", "CLOSED", "MERGED", "OPEN"]].length⟩, []) ∧
    specOpenCount ["OPEN", "CLOSED", "MERGED", "OPEN"] = 2 ∧
    specClosedOrMergedCount ["OPEN", "CLOSED", "MERGED", "OPEN"] = 2 :=
  c4_state_classification 1 0 [["OPEN", "CLOSED", "MERGED", "OPEN"]] (by simp)

/-- C3: over a simulated listing exhausted after `K` pages, the counter
and the enumerator each issue exactly `K` page requests and stop on the
`K`-th page (responses after it stay unconsumed); additionally the
enumerator stops on any page with an empty repository list, adding no
rows and treating it as no error. -/
theorem c3_exact_page_requests (n : Nat) (po : J → List Resp) :
    (∀ (pages : List (List String)) (junk : List Resp) (s : PRState), pages ≠ [] →
      ∃ res, prRun n s (prPagesStream pages ++ junk) = some (res, junk) ∧
        res.requests = pages.length) ∧
    (∀ (pages : List (List J)) (junk : List Resp) (st : OrgState),
      pages ≠ [] → (∀ p ∈ pages, p ≠ []) →
      (∀ rec ∈ pages.join, recCleanB n po 0 rec = true) →
      ∃ res, orgRun n po st (orgPagesStream pages ++ junk) = some (res, junk) ∧
        res.requests = pages.length) ∧
    (∀ (st : OrgState) (hn : Bool) (rest : List Resp),
      orgRun n po st (Resp.body (mkOrgPage [] hn) :: rest) =
        some (⟨st.rows, st.tokenIndex, 1⟩, rest)) := by
  refine ⟨?_, ?_, ?_⟩
  · intro pages junk s h
    exact ⟨_, prRun_pages n pages junk s h, rfl⟩
  · intro pages junk st h1 h2 h3
    obtain ⟨rows, ti, hh⟩ := orgRun_pages n po pages junk st h1 h2 h3
    exact ⟨_, hh, rfl⟩
  · intro st hn rest
    have hcls : classifyOrgBody (mkOrgPage [] hn) = OrgClass.emptyBreak := by
      rw [classify_mkOrgPage]
    rw [orgRun_cons]
    dsimp only
    rw [hcls]

/-- Witness for C3: a one-page pull-request listing with trailing junk, a
one-page repository listing, and an empty page with a claimed next page. -/
theorem c3_exact_page_requests_witness :
    (∃ res, prRun 1 ⟨0, 0, J.null, 0⟩ (prPagesStream [["OPEN"]] ++ [Resp.transport]) =
      some (res, [Resp.transport]) ∧ res.requests = [["OPEN"]].length) ∧
    (∃ res, orgRun 1 (fun _ => []) ⟨[], J.null, 0⟩ (orgPagesStream [[J.null]] ++ []) =
      some (res, []) ∧ res.requests = [[J.null]].length) ∧
    orgRun 1 (fun _ => []) ⟨[], J.null, 0⟩
        (Resp.body (mkOrgPage [] true) :: [Resp.transport]) =
      some (⟨[], 0, 1⟩, [Resp.transport]) := by
  obtain ⟨a, b, c⟩ := c3_exact_page_requests 1 (fun _ => [])
  exact ⟨a [["OPEN"]] [Resp.transport] ⟨0, 0, J.null, 0⟩ (by simp),
         b [[J.null]] [] ⟨[], J.null, 0⟩ (by simp) (by simp) (by decide),
         c ⟨[], J.null, 0⟩ true [Resp.transport]⟩

/-- An iteration can only report `done` on a success body with no errors
list whose `hasNextPage` read succeeded and is falsy. -/
theorem prStep_done_exit (n : Nat) (s : PRState) (r : Resp) (o c t : Nat)
    (h : prStep n s r = PRStep.done o c t) :
    ∃ data, r = Resp.body data ∧ hasErrorsKey data = Except.ok false ∧
      ∃ hn, prHasNext data = Except.ok hn ∧ truthy hn = false := by
  unfold prStep at h
  cases hc : classifyPR r with
  | retry => rw [hc] at h; exact PRStep.noConfusion h
  | retryCounted oi ci => rw [hc] at h; exact PRStep.noConfusion h
  | advance oi ci cc => rw [hc] at h; exact PRStep.noConfusion h
  | finish oi ci =>
    cases r with
    | transport => exact absurd hc (by simp [classifyPR])
    | body data =>
      obtain ⟨he, hn, hhn, hf⟩ := classifyPRBody_finish data oi ci (by rw [← hc]; rfl)
      exact ⟨data, rfl, he, hn, hhn, hf⟩

theorem bumpPR_some (x : Option (PRResult × List Resp)) (res : PRResult)
    (rem : List Resp) (h : bumpPR x = some (res, rem)) :
    ∃ res0, x = some (res0, rem) := by
  cases x with
  | none => simp [bumpPR] at h
  | some p =>
    obtain ⟨res0, rem0⟩ := p
    simp only [bumpPR, Option.some.injEq, Prod.mk.injEq] at h
    exact ⟨res0, by rw [h.2]⟩

/-- A completed pull-request run owes its exit to some success body in the
stream whose `hasNextPage` is falsy. -/
theorem prRun_some_exit (n : Nat) :
    ∀ (stream : List Resp) (s : PRState) (res : PRResult) (rem : List Resp),
      prRun n s stream = some (res, rem) →
      ∃ data, Resp.body data ∈ stream ∧ hasErrorsKey data = Except.ok false ∧
        ∃ hn, prHasNext data = Except.ok hn ∧ truthy hn = false := by
  intro stream
  induction stream with
  | nil => intro s res rem h; simp [prRun] at h
  | cons r rs ih =>
    intro s res rem h
    rw [show prRun n s (r :: rs) =
        (match prStep n s r with
          | PRStep.done o c t => some (PRResult.mk o c t 1, rs)
          | PRStep.cont s' => bumpPR (prRun n s' rs)) from rfl] at h
    cases hstep : prStep n s r with
    | done o c t =>
      obtain ⟨data, hr, hrest⟩ := prStep_done_exit n s r o c t hstep
      exact ⟨data, by rw [← hr]; exact List.mem_cons_self r rs, hrest⟩
    | cont s' =>
      rw [hstep] at h
      dsimp only at h
      obtain ⟨res0, h0⟩ := bumpPR_some _ _ _ h
      obtain ⟨data, hmem, hrest⟩ := ih s' res0 rem h0
      exact ⟨data, List.mem_cons_of_mem r hmem, hrest⟩

/-- C2: one iteration of the pull-request loop either keeps looping or
exits; a retry-classified response (soft or transport failure, or any
exception) rotates and leaves counters and cursor untouched; and the exit
can only be a success body with no errors list whose `hasNextPage` read
succeeded and is falsy. -/
theorem c2_only_exit_is_exhaustion (n : Nat) (s : PRState) (r : Resp) :
    ((∃ s', prStep n s r = PRStep.cont s') ∨
      ∃ o c t, prStep n s r = PRStep.done o c t) ∧
    (classifyPR r = PRClass.retry →
      prStep n s r = PRStep.cont (rotateTok n s) ∧
      (rotateTok n s).openCount = s.openCount ∧
      (rotateTok n s).closedCount = s.closedCount ∧
      (rotateTok n s).cursor = s.cursor) ∧
    (∀ o c t, prStep n s r = PRStep.done o c t →
      ∃ data, r = Resp.body data ∧ hasErrorsKey data = Except.ok false ∧
        ∃ hn, prHasNext data = Except.ok hn ∧ truthy hn = false) ∧
    (∀ (stream : List Resp) (s0 : PRState) (res : PRResult) (rem : List Resp),
      prRun n s0 stream = some (res, rem) →
      ∃ data, Resp.body data ∈ stream ∧ hasErrorsKey data = Except.ok false ∧
        ∃ hn, prHasNext data = Except.ok hn ∧ truthy hn = false) := by
  refine ⟨?_, ?_, ?_, ?_⟩
  · unfold prStep
    cases classifyPR r with
    | retry => exact Or.inl ⟨_, rfl⟩
    | retryCounted oi ci => exact Or.inl ⟨_, rfl⟩
    | advance oi ci c => exact Or.inl ⟨_, rfl⟩
    | finish oi ci => exact Or.inr ⟨_, _, _, rfl⟩
  · intro h
    unfold prStep
    rw [h]
    exact ⟨rfl, rfl, rfl, rfl⟩
  · intro o c t h
    exact prStep_done_exit n s r o c t h
  · intro stream s0 res rem h
    exact prRun_some_exit n stream s0 res rem h

/-- Witness for C2: a transport failure is absorbed, and an exhausted page
exits through the success branch. -/
theorem c2_only_exit_is_exhaustion_witness :
    (prStep 1 ⟨0, 0, J.null, 0⟩ Resp.transport =
      PRStep.cont (rotateTok 1 ⟨0, 0, J.null, 0⟩) ∧
      (rotateTok 1 (⟨0, 0, J.null, 0⟩ : PRState)).openCount = 0 ∧
      (rotateTok 1 (⟨0, 0, J.null, 0⟩ : PRState)).closedCount = 0 ∧
      (rotateTok 1 (⟨0, 0, J.null, 0⟩ : PRState)).cursor = J.null) ∧
    ∃ data, Resp.body (mkPRPage [] false) = Resp.body data ∧
      hasErrorsKey data = Except.ok false ∧
      ∃ hn, prHasNext data = Except.ok hn ∧ truthy hn = false :=
  ⟨(c2_only_exit_is_exhaustion 1 ⟨0, 0, J.null, 0⟩ Resp.transport).2.1 rfl,
   (c2_only_exit_is_exhaustion 1 ⟨0, 0, J.null, 0⟩
      (Resp.body (mkPRPage [] false))).2.2.1 0 0 0 rfl⟩

/-- C10: a soft or transport failure leaves the counters and the cursor
exactly as they were (only the token index rotates), so a page that fails
and is then retried is counted exactly once: the run with the failed
attempt has the same counters as the run without it. -/
theorem c10_failed_attempt_atomic (n : Nat) (s : PRState) (r : Resp)
    (h : r = Resp.transport ∨ ∃ d, r = Resp.body d ∧ hasErrorsKey d = Except.ok true) :
    prStep n s r = PRStep.cont (rotateTok n s) ∧
    (rotateTok n s).openCount = s.openCount ∧
    (rotateTok n s).closedCount = s.closedCount ∧
    (rotateTok n s).cursor = s.cursor ∧
    ∀ rest, Option.map prCounts (prRun n s (r :: rest)) =
      Option.map prCounts (prRun n s rest) := by
  have hcl : classifyPR r = PRClass.retry := by
    rcases h with h | ⟨d, hd, he⟩
    · rw [h]; rfl
    · rw [hd]
      show classifyPRBody d = PRClass.retry
      unfold classifyPRBody
      rw [he]
  refine ⟨by unfold prStep; rw [hcl], rfl, rfl, rfl, ?_⟩
  intro rest
  exact prRun_retry_cons n s r rest hcl

/-- Witness for C10: a transport failure before an exhausted page. -/
theorem c10_failed_attempt_atomic_witness :
    Option.map prCounts (prRun 2 ⟨0, 0, J.null, 0⟩
        (Resp.transport :: [Resp.body (mkPRPage ["OPEN"] false)])) =
      Option.map prCounts (prRun 2 ⟨0, 0, J.null, 0⟩
        [Resp.body (mkPRPage ["OPEN"] false)]) :=
  (c10_failed_attempt_atomic 2 ⟨0, 0, J.null, 0⟩ Resp.transport (Or.inl rfl)).2.2.2.2
    [Resp.body (mkPRPage ["OPEN"] false)]

/-- C1: a page response that is HTTP-successful but carries a top-level
errors list makes the loop rotate exactly once, keeping counters and
cursor (the retried request has identical variables), and the run with
the soft error inserted accumulates exactly the counters (respectively
rows) of the run without it. -/
theorem c1_soft_error_transparent (n : Nat) (e : J)
    (he : hasErrorsKey e = Except.ok true) :
    (∀ s : PRState, prStep n s (Resp.body e) = PRStep.cont (rotateTok n s) ∧
      (rotateTok n s).openCount = s.openCount ∧
      (rotateTok n s).closedCount = s.closedCount ∧
      (rotateTok n s).cursor = s.cursor ∧
      (rotateTok n s).tokenIndex = (s.tokenIndex + 1) % n) ∧
    (∀ (s : PRState) (rest : List Resp),
      Option.map prCounts (prRun n s (Resp.body e :: rest)) =
        Option.map prCounts (prRun n s rest)) ∧
    (∀ (po : J → List Resp) (st : OrgState) (rest : List Resp),
      Option.map orgRowsRem (orgRun n po st (Resp.body e :: rest)) =
        Option.map orgRowsRem (orgRun n po st rest)) := by
  have hcl : classifyPR (Resp.body e) = PRClass.retry := by
    show classifyPRBody e = PRClass.retry
    unfold classifyPRBody
    rw [he]
  have hco : classifyOrgBody e = OrgClass.retry := by
    unfold classifyOrgBody
    rw [he]
  refine ⟨?_, ?_, ?_⟩
  · intro s
    exact ⟨by unfold prStep; rw [hcl], rfl, rfl, rfl, rfl⟩
  · intro s rest
    exact prRun_retry_cons n s (Resp.body e) rest hcl
  · intro po st rest
    exact orgRun_retry_cons n po st e rest hco

/-- Witness for C1: a soft error body followed by a one-page success. -/
theorem c1_soft_error_transparent_witness :
    prStep 2 ⟨0, 0, J.null, 0⟩ (Resp.body (J.obj [("errors", J.list [])])) =
      PRStep.cont (rotateTok 2 ⟨0, 0, J.null, 0⟩) ∧
    Option.map prCounts (prRun 2 ⟨0, 0, J.null, 0⟩
        (Resp.body (J.obj [("errors", J.list [])]) ::
          [Resp.body (mkPRPage ["OPEN"] false)])) =
      Option.map prCounts (prRun 2 ⟨0, 0, J.null, 0⟩
        [Resp.body (mkPRPage ["OPEN"] false)]) :=
  ⟨((c1_soft_error_transparent 2 (J.obj [("errors", J.list [])]) rfl).1
      ⟨0, 0, J.null, 0⟩).1,
   (c1_soft_error_transparent 2 (J.obj [("errors", J.list [])]) rfl).2.1
      ⟨0, 0, J.null, 0⟩ [Resp.body (mkPRPage ["OPEN"] false)]⟩

/-- C5: every row the enumerator returns carries exactly the counters of a
completed (fully drained) pull-request run on that repository's response
stream — a partial or interrupted summary is never attached. -/
theorem c5_rows_fully_drained (n : Nat) (po : J → List Resp) (ti : Nat)
    (stream : List Resp) (res : OrgResult) (rem : List Resp)
    (h : fetch_org_repos n po ti stream = some (res, rem)) :
    ∀ row ∈ res.rows, ∃ t prRes prRem,
      prRun n ⟨0, 0, J.null, t⟩ (po row.name) = some (prRes, prRem) ∧
      row.openPullRequests = prRes.openCount ∧
      row.closedPullRequests = prRes.closedCount := by
  intro row hrow
  rcases orgRun_rows n po stream ⟨[], J.null, ti⟩ res rem h row hrow with hmem | hex
  · exact absurd hmem (List.not_mem_nil row)
  · exact hex

/-- A one-repository listing used by witnesses. -/
def sampleOracle : J → List Resp := fun _ => [Resp.body (mkPRPage ["OPEN"] false)]

/-- A one-page repository listing used by witnesses. -/
def sampleOrgStream : List Resp :=
  [Resp.body (mkOrgPage [J.obj [("name", J.str "r")]] false)]

/-- The row the sample listing produces. -/
def sampleRow : RepoInfo :=
  ⟨J.str "r", "Public", J.str "N/A", J.str "N/A", J.num 0, J.str "N/A", 1, 0,
   J.num 0, J.num 0, "", J.num 0, J.num 0, J.str "N/A", J.str "N/A", "No"⟩

/-- Witness for C5 on the sample listing. -/
theorem c5_rows_fully_drained_witness :
    ∃ t prRes prRem,
      prRun 1 ⟨0, 0, J.null, t⟩ (sampleOracle sampleRow.name) = some (prRes, prRem) ∧
      sampleRow.openPullRequests = prRes.openCount ∧
      sampleRow.closedPullRequests = prRes.closedCount :=
  c5_rows_fully_drained 1 sampleOracle 0 sampleOrgStream ⟨[sampleRow], 0, 1⟩ [] rfl
    sampleRow (List.mem_cons_self _ _)

/-- `dict.get` on an object is the lookup with a default, never raising. -/
theorem pyGet_obj (fs : List (String × J)) (k : String) (d : J) :
    pyGet (J.obj fs) k d = Except.ok ((lookupKey fs k).getD d) := by
  show (match lookupKey fs k with
    | some x => Except.ok x
    | none => Except.ok d) = Except.ok ((lookupKey fs k).getD d)
  cases h : lookupKey fs k with
  | none => rfl
  | some x => rfl

theorem okBind {α β : Type} (a : α) (f : α → Except Unit β) :
    (Except.ok a >>= f) = f a := rfl

/-- Counterexample to C6 as stated: on a record with no `diskUsage` key,
the Size field normalizes to the string `"N/A"` — not to `0` as the claim
requires for count fields. -/
theorem c6_counterexample :
    normalizePre (J.obj []) = Except.ok
      ⟨J.str "N/A", "Public", J.str "N/A", J.str "N/A", J.num 0, J.str "N/A"⟩ ∧
    J.str "N/A" ≠ J.num 0 :=
  ⟨rfl, fun h => J.noConfusion h⟩

/-- C6 (amended): missing string fields default to `"N/A"`; missing count
fields other than Size default to `0`, while a missing `diskUsage` (Size)
defaults to the string `"N/A"`; missing booleans give `Public` and `No`; a
wholly missing `languages` list joins to the empty string; and a record
with no `defaultBranchRef` key normalizes without raising, with Default
Branch `"N/A"`, Total Commits `0`, Last Pusher `"N/A"`. -/
theorem c6_missing_field_defaults (fs : List (String × J)) :
    (lookupKey fs "defaultBranchRef" = none →
      normalizePre (J.obj fs) = Except.ok
        ⟨(lookupKey fs "name").getD (J.str "N/A"),
         if truthy ((lookupKey fs "isPrivate").getD (J.bool false))
           then "Private" else "Public",
         (lookupKey fs "diskUsage").getD (J.str "N/A"),
         J.str "N/A", J.num 0, J.str "N/A"⟩) ∧
    (lookupKey fs "isPrivate" = none → getVisibility (J.obj fs) = Except.ok "Public") ∧
    (lookupKey fs "openIssues" = none → getOpenIssues (J.obj fs) = Except.ok (J.num 0)) ∧
    (lookupKey fs "closedIssues" = none →
      getClosedIssues (J.obj fs) = Except.ok (J.num 0)) ∧
    (lookupKey fs "releases" = none → getTotalReleases (J.obj fs) = Except.ok (J.num 0)) ∧
    (lookupKey fs "refs" = none → getTotalTags (J.obj fs) = Except.ok (J.num 0)) ∧
    (lookupKey fs "pushedAt" = none →
      pyGet (J.obj fs) "pushedAt" (J.str "N/A") = Except.ok (J.str "N/A")) ∧
    (lookupKey fs "updatedAt" = none →
      pyGet (J.obj fs) "updatedAt" (J.str "N/A") = Except.ok (J.str "N/A")) ∧
    (lookupKey fs "isArchived" = none → getArchived (J.obj fs) = Except.ok "No") ∧
    (lookupKey fs "languages" = none → getLanguages (J.obj fs) = Except.ok "") := by
  refine ⟨?_, ?_, ?_, ?_, ?_, ?_, ?_, ?_, ?_, ?_⟩
  · intro h
    unfold normalizePre getVisibility getDefaultBranch getTotalCommits getLastPusher
    simp only [pyGet_obj]
    rw [h]
    rfl
  · intro h
    unfold getVisibility
    rw [pyGet_obj, h]
    rfl
  · intro h
    unfold getOpenIssues
    rw [pyGet_obj, h]
    rfl
  · intro h
    unfold getClosedIssues
    rw [pyGet_obj, h]
    rfl
  · intro h
    unfold getTotalReleases
    rw [pyGet_obj, h]
    rfl
  · intro h
    unfold getTotalTags
    rw [pyGet_obj, h]
    rfl
  · intro h
    rw [pyGet_obj, h]
    rfl
  · intro h
    rw [pyGet_obj, h]
    rfl
  · intro h
    unfold getArchived
    rw [pyGet_obj, h]
    rfl
  · intro h
    unfold getLanguages
    rw [pyGet_obj, h]
    rfl

/-- Witness for C6 on the empty record. -/
theorem c6_missing_field_defaults_witness :
    normalizePre (J.obj []) = Except.ok
      ⟨J.str "N/A", "Public", J.str "N/A", J.str "N/A", J.num 0, J.str "N/A"⟩ ∧
    getOpenIssues (J.obj []) = Except.ok (J.num 0) ∧
    getArchived (J.obj []) = Except.ok "No" :=
  ⟨(c6_missing_field_defaults []).1 rfl,
   (c6_missing_field_defaults []).2.2.1 rfl,
   (c6_missing_field_defaults []).2.2.2.2.2.2.2.2.1 rfl⟩

/-- A `None` or dictionary page entry never reaches the page-level
handler: its own handler's `repo.get` succeeds, so the worst outcome is a
logged skip. -/
theorem processRecord_no_abort (n ti : Nat) (po : J → List Resp) (rec : J)
    (h : isNull rec = true ∨ isObj rec = true) :
    ∀ t, processRecord n ti po rec ≠ some (RecOutcome.abortPage t) := by
  intro t hcon
  unfold processRecord at hcon
  cases hnull : isNull rec with
  | true => rw [hnull] at hcon; simp at hcon
  | false =>
    rw [hnull] at hcon
    simp only [Bool.false_eq_true, if_false] at hcon
    have hobj : isObj rec = true := by
      rcases h with h | h
      · rw [h] at hnull; exact Bool.noConfusion hnull
      · exact h
    cases hpre : normalizePre rec with
    | error e => rw [hpre] at hcon; rw [hobj] at hcon; simp at hcon
    | ok pre =>
      rw [hpre] at hcon
      dsimp only at hcon
      cases hf : fetch_pull_requests_count n ti (po pre.name) with
      | none => rw [hf] at hcon; simp at hcon
      | some p =>
        obtain ⟨res, rem⟩ := p
        rw [hf] at hcon
        cases hpost : normalizePost rec with
        | error e => rw [hpost] at hcon; rw [hobj] at hcon; simp at hcon
        | ok post => rw [hpost] at hcon; simp at hcon

/-- Counterexample to C7 as stated: in the page `[42, {name: r}]` the
exception raised while normalizing the integer entry re-raises inside the
`except` handler (`repo.get` on a non-dictionary), aborting the rest of
the page — the well-formed repository after it is not processed — whereas
that repository alone yields its row. -/
theorem c7_counterexample :
    processRecords 1 (fun _ => [Resp.body (mkPRPage [] false)]) 0
        [J.num 42, J.obj [("name", J.str "r")]] = PageOutcome.aborted [] 0 ∧
    (∃ rows ti, processRecords 1 (fun _ => [Resp.body (mkPRPage [] false)]) 0
        [J.obj [("name", J.str "r")]] = PageOutcome.ok rows ti ∧ rows.length = 1) := by
  constructor
  · rfl
  · exact ⟨_, _, rfl, rfl⟩

/-- C7 (amended): a `None` entry is logged and skipped; for pages whose
entries are all `None` or dictionaries the page-level handler is never
reached (no abort); and whenever an entry's outcome is a logged skip, the
page processes exactly as if that entry were absent. A non-dictionary,
non-`None` entry, however, re-raises inside the handler and aborts the
rest of its page. -/
theorem c7_per_record_isolation (n : Nat) (po : J → List Resp) :
    (∀ ti, processRecord n ti po J.null = some (RecOutcome.skip ti)) ∧
    (∀ (recs : List J) (ti : Nat),
      (∀ rec ∈ recs, isNull rec = true ∨ isObj rec = true) →
      ∀ rows t, processRecords n po ti recs ≠ PageOutcome.aborted rows t) ∧
    (∀ (rec : J) (rest : List J) (ti ti2 : Nat),
      processRecord n ti po rec = some (RecOutcome.skip ti2) →
      pageView (processRecords n po ti (rec :: rest)) =
        pageView (processRecords n po ti rest)) := by
  refine ⟨fun ti => rfl, ?_, ?_⟩
  · intro recs
    induction recs with
    | nil => intro ti h rows t hcon; simp [processRecords] at hcon
    | cons rec rest ih =>
      intro ti h rows t hcon
      have hrec := h rec (List.mem_cons_self rec rest)
      cases h1 : processRecord n ti po rec with
      | none =>
        simp only [processRecords, h1] at hcon
        exact PageOutcome.noConfusion hcon
      | some o =>
        cases o with
        | skip t2 =>
          simp only [processRecords, h1] at hcon
          exact ih t2 (fun r hr => h r (List.mem_cons_of_mem _ hr)) rows t hcon
        | abortPage t2 => exact processRecord_no_abort n ti po rec hrec t2 h1
        | row r t2 =>
          simp only [processRecords, h1] at hcon
          cases h2 : processRecords n po t2 rest with
          | ok rows2 t3 => rw [h2] at hcon; exact PageOutcome.noConfusion hcon
          | aborted rows2 t3 =>
            exact ih t2 (fun r hr => h r (List.mem_cons_of_mem _ hr)) rows2 t3 h2
          | stuck => rw [h2] at hcon; exact PageOutcome.noConfusion hcon
  · intro rec rest ti ti2 h
    simp only [processRecords, h]
    exact processRecords_tok n po rest ti2 ti

/-- Witness for C7: a skipped `None` entry, a no-abort page of a `None`
and a dictionary whose normalization raises, and skip-transparency for
that dictionary. -/
theorem c7_per_record_isolation_witness :
    processRecord 1 0 (fun _ => []) J.null = some (RecOutcome.skip 0) ∧
    processRecords 1 (fun _ => []) 0 [J.null, J.obj [("defaultBranchRef", J.null)]] ≠
      PageOutcome.aborted [] 0 ∧
    pageView (processRecords 1 (fun _ => []) 0
        [J.obj [("defaultBranchRef", J.null)], J.null]) =
      pageView (processRecords 1 (fun _ => []) 0 [J.null]) :=
  ⟨(c7_per_record_isolation 1 (fun _ => [])).1 0,
   (c7_per_record_isolation 1 (fun _ => [])).2.1
     [J.null, J.obj [("defaultBranchRef", J.null)]] 0 (by decide) [] 0,
   (c7_per_record_isolation 1 (fun _ => [])).2.2
     (J.obj [("defaultBranchRef", J.null)]) [J.null] 0 0 rfl⟩

/-- C9: with a non-empty row sequence the emitted file is exactly the
fixed 16-column header followed by one line per row in insertion order;
with an empty row sequence no file is emitted. -/
theorem c9_report_schema (rows : List RepoInfo) :
    (rows = [] → emitReport rows = none) ∧
    (rows ≠ [] → emitReport rows = some (csvHeader, rows.map rowCells)) ∧
    csvHeader = ["Repository Name", "Visibility", "Size (KB)", "Default Branch",
      "Total Commits", "Last Pusher", "Open Pull Requests", "Closed Pull Requests",
      "Open Issues", "Closed Issues", "Languages", "Total Releases", "Total Tags",
      "Last Pushed At", "Last Updated At", "Archived"] ∧
    csvHeader.length = 16 ∧
    (rows.map rowCells).length = rows.length ∧
    ∀ (i : Nat) (hi : i < rows.length),
      (rows.map rowCells).get ⟨i, by simpa using hi⟩ = rowCells (rows.get ⟨i, hi⟩) := by
  refine ⟨?_, ?_, rfl, rfl, by simp, ?_⟩
  · intro h; subst h; rfl
  · intro h
    unfold emitReport
    rw [if_neg]
    simp [h]
  · intro i hi
    simp [List.get_eq_getElem, List.getElem_map]

/-- Witness for C9: the empty sequence emits nothing, a one-row sequence
emits header plus that row. -/
theorem c9_report_schema_witness :
    emitReport [] = none ∧
    emitReport [sampleRow] = some (csvHeader, [rowCells sampleRow]) :=
  ⟨(c9_report_schema []).1 rfl, (c9_report_schema [sampleRow]).2.1 (by simp)⟩
